import Mathlib

/-!
Verification development for three circuit fragments of a zk-EVM repository:
the CHAINID execution gadget, the invalid-jump error gadget, and the
Poseidon sub-circuit wrapper.

The two gadget `configure` functions are embedded as computations over a
small constraint-builder state that records, in source order, every lookup,
constraint, sub-gadget and step-state transition the source registers,
each together with the stack of condition expressions in scope when it was
registered.  Expressions over circuit cells are a small integer-valued AST;
all values handled by these gadgets are tiny compared to the BN254 scalar
field modulus, so integer semantics is faithful (no reduction can fire).

The witness-assignment functions are embedded as pure functions from the
execution trace to the assigned cell values; Rust panics (unwrap, expect,
out-of-bounds indexing, checked u64 conversion, zip_eq) are made explicit
as panic outcomes distinct from the declared circuit-error channel.

The constraint-builder primitives themselves (cell allocation, stack
push/pop lookups, block-context lookups, bytecode-length and byte-value
lookups, boolean/equality gadgets, conditional constraint scoping) live
outside the given sources; they are modelled from the specification of the
repository, which describes exactly these primitives, and each such model
carries a doc comment saying so.
-/

namespace Zk

/-- Execution states of the EVM circuit that this development needs. -/
inductive ExecState where
  | CHAINID
  | ErrorInvalidJump
  | EndTx
  | STOP
  deriving DecidableEq, Repr

/-- Tags of the block-context table (only the tag used by the sources). -/
inductive BlockTag where
  | chainId
  | otherTag
  deriving DecidableEq, Repr

/-- Tags of the call-context table (only the tag used by the sources). -/
inductive CallCtxTag where
  | isSuccess
  | otherCallTag
  deriving DecidableEq, Repr

/-- Names of the named constraints the sources register (kept as an
enumeration; the source uses string labels with the same wording). -/
inductive CName where
  | isCodeBoolType
  | isCodeFalseOrNotJumpdest
  | goToEndTxOnlyWhenIsRoot
  deriving DecidableEq, Repr

/-- Modelled from the spec: the constant gas cost of the CHAINID opcode
(an EVM quick-gas opcode, cost 2); the opcode table itself is outside the
given sources. -/
def chainidConstantGasCost : Int := 2

/-- The JUMPDEST opcode byte. -/
def jumpdestOpcode : Int := 0x5b

/-- Expressions handed to the constraint builder: integer constants,
allocated cells, the distinguished step-state operands the sources read
from the builder, and ring operations. -/
inductive Expr where
  | const (n : Int)
  | cell (i : Nat)
  | currCodeHash
  | currIsRoot
  | currReversibleWriteCounter
  | nextStateIs (s : ExecState)
  | add (a b : Expr)
  | sub (a b : Expr)
  | mul (a b : Expr)
  | neg (a : Expr)
  deriving DecidableEq, Repr

/-- The step-state components the constraint builder tracks for the
current and the next execution step. -/
structure StepState where
  rw_counter : Int
  call_id : Int
  is_root : Int
  is_create : Int
  code_hash : Int
  program_counter : Int
  stack_pointer : Int
  gas_left : Int
  memory_word_size : Int
  reversible_write_counter : Int
  log_id : Int
  exec_state : ExecState
  deriving DecidableEq, Repr

/-- An evaluation environment: concrete values for the allocated cells and
for the current and next step states. -/
structure Env where
  cells : List Int
  curr : StepState
  next : StepState

/-- Value of cell `i` in an environment (unassigned cells read as 0). -/
def cellVal (env : Env) (i : Nat) : Int :=
  env.cells.getD i 0

/-- Evaluation of expressions over an environment. -/
def Expr.eval (env : Env) : Expr → Int
  | .const n => n
  | .cell i => cellVal env i
  | .currCodeHash => env.curr.code_hash
  | .currIsRoot => env.curr.is_root
  | .currReversibleWriteCounter => env.curr.reversible_write_counter
  | .nextStateIs s => if env.next.exec_state = s then 1 else 0
  | .add a b => a.eval env + b.eval env
  | .sub a b => a.eval env - b.eval env
  | .mul a b => a.eval env * b.eval env
  | .neg a => -(a.eval env)

/-- A transition of one step-state component, as in the constraint
builder: unchanged, changed by a delta, set to a value, or unconstrained.
The default transition is `same` (unchanged). -/
inductive Transition where
  | same
  | delta (e : Expr)
  | to (e : Expr)
  | any
  deriving DecidableEq, Repr

/-- The step-state transition record a gadget hands to the constraint
builder; omitted components take the default transition `same`. -/
structure StepStateTransition where
  rw_counter : Transition := .same
  call_id : Transition := .same
  is_root : Transition := .same
  is_create : Transition := .same
  code_hash : Transition := .same
  program_counter : Transition := .same
  stack_pointer : Transition := .same
  gas_left : Transition := .same
  memory_word_size : Transition := .same
  reversible_write_counter : Transition := .same
  log_id : Transition := .same
  deriving DecidableEq, Repr

/-- The fully unconstrained transition record, as built by the source
through the `any` constructor of step-state transitions. -/
def StepStateTransition.anyAll : StepStateTransition :=
  { rw_counter := .any, call_id := .any, is_root := .any, is_create := .any
    code_hash := .any, program_counter := .any, stack_pointer := .any
    gas_left := .any, memory_word_size := .any
    reversible_write_counter := .any, log_id := .any }

/-- Everything the constraint builder registers on behalf of a gadget:
lookups into the shared tables, polynomial constraints, the abstracted
comparison/equality sub-gadgets, step-state transitions, and the
context-restoration sub-gadget. -/
inductive EffectKind where
  | stackPush (lo hi : Expr)
  | stackPopRlc (byteCells : List Nat)
  | blockLookup (tag : BlockTag) (number : Option Expr) (value : Expr)
  | bytecodeLengthLookup (codeHash : Expr) (length : Expr)
  | bytecodeLookup (codeHash index isCode value : Expr)
  | callContextLookup (isWrite : Bool) (callId : Option Expr) (tag : CallCtxTag) (value : Expr)
  | opcodeLookup (opcode : Expr)
  | requireZero (name : CName) (e : Expr)
  | requireEqual (name : CName) (a b : Expr)
  | requireBoolean (name : CName) (e : Expr)
  | ltGadget (lhs rhs : Expr) (ltCell : Nat)
  | isEqualGadget (a b : Expr) (eqCell : Nat)
  | stepStateTransition (t : StepStateTransition)
  | restoreContext (args : List Expr)
  deriving DecidableEq, Repr

/-- An effect together with the condition expressions in scope when the
source registered it (outer conditions first). -/
structure Effect where
  cond : List Expr
  kind : EffectKind
  deriving DecidableEq, Repr

/-- The constraint-builder state: next fresh cell index, conditions in
scope, and the effects registered so far in source order. -/
structure CB where
  nextCell : Nat
  conds : List Expr
  effects : List Effect

/-- The empty constraint-builder state a configure run starts from. -/
def CB.init : CB := { nextCell := 0, conds := [], effects := [] }

/-- Modelled from the spec: registering one lookup or constraint with the
constraint builder, under the conditions currently in scope. -/
def CB.emit (cb : CB) (k : EffectKind) : CB :=
  { cb with effects := cb.effects ++ [{ cond := cb.conds, kind := k }] }

/-- Modelled from the spec: cell allocation by the constraint builder. -/
def CB.queryCell (cb : CB) : Nat × CB :=
  (cb.nextCell, { cb with nextCell := cb.nextCell + 1 })

/-- Modelled from the spec: allocation of an unchecked word cell, one low
limb cell and one high limb cell. -/
def CB.queryWordUnchecked (cb : CB) : (Nat × Nat) × CB :=
  let (lo, cb) := cb.queryCell
  let (hi, cb) := cb.queryCell
  ((lo, hi), cb)

/-- Modelled from the spec: allocation of a random-linear-combination
value over `n` byte cells; returns the byte cell indices. -/
def CB.queryRlc (cb : CB) (n : Nat) : List Nat × CB :=
  ((List.range n).map (fun i => cb.nextCell + i),
   { cb with nextCell := cb.nextCell + n })

/-- Modelled from the spec: conditional constraint scoping; every effect
registered by the body carries the extra condition. -/
def CB.withCondition {A : Type} (cb : CB) (c : Expr) (body : CB → A × CB) : A × CB :=
  let cb1 := { cb with conds := cb.conds ++ [c] }
  let (a, cb2) := body cb1
  (a, { cb2 with conds := cb.conds })

/-- Modelled from the spec: the stack-push read-write lookup. -/
def CB.stackPush (cb : CB) (lo hi : Expr) : CB :=
  cb.emit (.stackPush lo hi)

/-- Modelled from the spec: the stack-pop read-write lookup on a
random-linear-combination value. -/
def CB.stackPopRlc (cb : CB) (cells : List Nat) : CB :=
  cb.emit (.stackPopRlc cells)

/-- Modelled from the spec: the block-context table lookup. -/
def CB.blockLookup (cb : CB) (tag : BlockTag) (number : Option Expr) (value : Expr) : CB :=
  cb.emit (.blockLookup tag number value)

/-- Modelled from the spec: the bytecode-length lookup; allocates the cell
holding the length and registers the lookup tying it to the code hash. -/
def CB.bytecodeLength (cb : CB) (codeHash : Expr) : Nat × CB :=
  let (len, cb) := cb.queryCell
  (len, cb.emit (.bytecodeLengthLookup codeHash (.cell len)))

/-- Modelled from the spec: the bytecode byte-value lookup. -/
def CB.bytecodeLookup (cb : CB) (codeHash index isCode value : Expr) : CB :=
  cb.emit (.bytecodeLookup codeHash index isCode value)

/-- Modelled from the spec: the call-context table lookup. -/
def CB.callContextLookup (cb : CB) (isWrite : Bool) (callId : Option Expr)
    (tag : CallCtxTag) (value : Expr) : CB :=
  cb.emit (.callContextLookup isWrite callId tag value)

/-- Modelled from the spec: a named zero constraint. -/
def CB.requireZero (cb : CB) (name : CName) (e : Expr) : CB :=
  cb.emit (.requireZero name e)

/-- Modelled from the spec: a named equality constraint. -/
def CB.requireEqual (cb : CB) (name : CName) (a b : Expr) : CB :=
  cb.emit (.requireEqual name a b)

/-- Modelled from the spec: a named booleanity constraint. -/
def CB.requireBoolean (cb : CB) (name : CName) (e : Expr) : CB :=
  cb.emit (.requireBoolean name e)

/-- Modelled from the spec: the step-state transition constraints. -/
def CB.requireStepStateTransition (cb : CB) (t : StepStateTransition) : CB :=
  cb.emit (.stepStateTransition t)

/-- Modelled from the spec: the less-than comparison gadget.  It allocates
the result cell and registers its constraints; the internal byte-difference
witnesses are abstracted into the semantics of the registered effect: the
result cell equals 1 exactly when the left operand is less than the right
one.  Its expression is the result cell. -/
def LtGadget.construct (cb : CB) (lhs rhs : Expr) : Nat × CB :=
  let (lt, cb) := cb.queryCell
  (lt, cb.emit (.ltGadget lhs rhs lt))

/-- Modelled from the spec: the equality gadget.  It allocates the result
cell and registers its constraints; the internal inverse witness is
abstracted into the semantics of the registered effect: the result cell
equals 1 exactly when the two operands are equal.  Its expression is the
result cell. -/
def IsEqualGadget.construct (cb : CB) (a b : Expr) : Nat × CB :=
  let (eqc, cb) := cb.queryCell
  (eqc, cb.emit (.isEqualGadget a b eqc))

/-- Modelled from the spec: the same-context gadget shared by ordinary
opcode gadgets.  It registers the bytecode lookup of the opcode at the
current program counter and the step-state transition handed to it; its
internal gas-sufficiency range check is orthogonal to every claim and is
elided. -/
def SameContextGadget.construct (cb : CB) (opcode : Nat) (t : StepStateTransition) : CB :=
  (cb.emit (.opcodeLookup (.cell opcode))).requireStepStateTransition t

/-- Modelled from the spec: the context-restoration gadget used when an
internal call terminates; it restores the caller state to the next step
state.  Its construction arguments are recorded; its internal lookups are
outside the given sources. -/
def RestoreContextGadget.construct (cb : CB) (args : List Expr) : CB :=
  cb.emit (.restoreContext args)

/-- Little-endian base-256 value of a list of byte cells, as built by the
from-bytes expression helper of the source (Horner form). -/
def fromBytesExpr : List Nat → Expr
  | [] => .const 0
  | i :: rest => .add (.cell i) (.mul (.const 256) (fromBytesExpr rest))

/-- The step-state transition record built by the CHAINID gadget:
read-write counter, program counter and stack pointer move by their
deltas, gas decreases by the constant gas cost of CHAINID, and every
omitted component keeps the default transition. -/
def chainidSST : StepStateTransition :=
  { rw_counter := .delta (.const 1)
    program_counter := .delta (.const 1)
    stack_pointer := .delta (.const (-1))
    gas_left := .delta (.neg (.const chainidConstantGasCost)) }

/-- Embedding of the configure function of the CHAINID gadget, following
the source line by line: allocate the chain-id word, push it onto the
stack, register the block-context lookup of its low limb tagged with the
chain-id tag, allocate the opcode cell and construct the same-context
gadget with the transition record. -/
def chainidConfigure : CB :=
  let cb := CB.init
  let ((chainIdLo, chainIdHi), cb) := cb.queryWordUnchecked
  let cb := cb.stackPush (.cell chainIdLo) (.cell chainIdHi)
  let cb := cb.blockLookup .chainId none (.cell chainIdLo)
  let (opcode, cb) := cb.queryCell
  SameContextGadget.construct cb opcode chainidSST

/-- The effects registered by the CHAINID configure run, in source
order. -/
def chainidEffects : List Effect := chainidConfigure.effects

/-- The number of byte cells of a program-counter value in the source. -/
def nBytesProgramCounter : Nat := 8

/-- Embedding of the configure function of the invalid-jump error gadget,
following the source line by line: allocate the destination bytes, the
opcode, value and is-code cells; build the jump-destination equality
gadget; pop the destination from the stack; look up the bytecode length of
the current code hash; build the out-of-range comparison gadget on
(code length, destination value); under the condition that the destination
is not out of range, register the bytecode byte lookup at the destination
together with the booleanity of is-code and the zero constraint on
is-code times is-jump-dest; register the call-context lookup of the
success flag; tie the next-state-is-end-tx selector to the root flag;
under the root condition require the partial step-state transition; under
the non-root condition construct the context-restoration gadget. -/
def errorInvalidJumpConfigure : CB :=
  let cb := CB.init
  let (destCells, cb) := cb.queryRlc nBytesProgramCounter
  let (opcode, cb) := cb.queryCell
  let (value, cb) := cb.queryCell
  let (isCode, cb) := cb.queryCell
  let (isJumpDest, cb) := IsEqualGadget.construct cb (.cell value) (.const jumpdestOpcode)
  let cb := cb.stackPopRlc destCells
  let (codeLength, cb) := cb.bytecodeLength .currCodeHash
  let destValue := fromBytesExpr destCells
  let (outOfRange, cb) := LtGadget.construct cb (.cell codeLength) destValue
  let ((), cb) := cb.withCondition (.sub (.const 1) (.cell outOfRange)) (fun cb =>
    let cb := cb.bytecodeLookup .currCodeHash destValue (.cell isCode) (.cell value)
    let cb := cb.requireBoolean .isCodeBoolType (.cell isCode)
    let cb := cb.requireZero .isCodeFalseOrNotJumpdest
      (.mul (.cell isCode) (.cell isJumpDest))
    ((), cb))
  let cb := cb.callContextLookup false none .isSuccess (.const 0)
  let cb := cb.requireEqual .goToEndTxOnlyWhenIsRoot
    Expr.currIsRoot (Expr.nextStateIs .EndTx)
  let ((), cb) := cb.withCondition Expr.currIsRoot (fun cb =>
    ((), cb.requireStepStateTransition
      { StepStateTransition.anyAll with
        call_id := .same
        rw_counter := .delta (.add (.const 2) .currReversibleWriteCounter) }))
  let ((), cb) := cb.withCondition (.sub (.const 1) Expr.currIsRoot) (fun cb =>
    ((), RestoreContextGadget.construct cb
      [.const 0, .const 2, .const 0, .const 0, .const 0]))
  let _ := (opcode, isJumpDest, codeLength, outOfRange)
  cb

/-- The effects registered by the invalid-jump configure run, in source
order. -/
def errorInvalidJumpEffects : List Effect := errorInvalidJumpConfigure.effects

/-- The witness tables the lookups refer to: stack read-write rows as
(low limb, high limb) word pairs, stack rows as byte lists for the
random-linear-combination era, block-context rows, bytecode length rows,
bytecode byte rows as (code hash, index, is-code, byte), and call-context
rows. -/
structure Tables where
  stackRows : List (Int × Int) := []
  stackByteRows : List (List Int) := []
  blockRows : List (BlockTag × Int) := []
  bytecodeLenRows : List (Int × Int) := []
  bytecodeByteRows : List (Int × Int × Int × Int) := []
  callCtxRows : List (CallCtxTag × Int) := []

/-- Product of the condition expressions attached to an effect. -/
def condProd (env : Env) : List Expr → Int
  | [] => 1
  | c :: rest => c.eval env * condProd env rest

/-- Whether one step-state component satisfies a transition between a
current and a next value. -/
def transitionHoldsB (env : Env) (cur nxt : Int) : Transition → Bool
  | .same => nxt = cur
  | .delta e => nxt = cur + e.eval env
  | .to e => nxt = e.eval env
  | .any => true

/-- Whether a step-state transition record holds between the current and
next step states of an environment. -/
def sstHoldsB (env : Env) (t : StepStateTransition) : Bool :=
  transitionHoldsB env env.curr.rw_counter env.next.rw_counter t.rw_counter &&
  transitionHoldsB env env.curr.call_id env.next.call_id t.call_id &&
  transitionHoldsB env env.curr.is_root env.next.is_root t.is_root &&
  transitionHoldsB env env.curr.is_create env.next.is_create t.is_create &&
  transitionHoldsB env env.curr.code_hash env.next.code_hash t.code_hash &&
  transitionHoldsB env env.curr.program_counter env.next.program_counter t.program_counter &&
  transitionHoldsB env env.curr.stack_pointer env.next.stack_pointer t.stack_pointer &&
  transitionHoldsB env env.curr.gas_left env.next.gas_left t.gas_left &&
  transitionHoldsB env env.curr.memory_word_size env.next.memory_word_size t.memory_word_size &&
  transitionHoldsB env env.curr.reversible_write_counter
    env.next.reversible_write_counter t.reversible_write_counter &&
  transitionHoldsB env env.curr.log_id env.next.log_id t.log_id

/-- Satisfaction of one registered effect by an environment and the
witness tables.  A lookup or constraint under conditions is vacuous when
the condition product is zero; an active lookup requires its row to appear
in the table; the comparison and equality gadgets constrain their result
cell to the comparison they implement; the internal constraints of the
context-restoration gadget lie outside the given sources and are not
interpreted here. -/
def effectHoldsB (env : Env) (t : Tables) (e : Effect) : Bool :=
  let p := condProd env e.cond
  match e.kind with
  | .stackPush lo hi =>
      p = 0 || (lo.eval env, hi.eval env) ∈ t.stackRows
  | .stackPopRlc cells =>
      p = 0 || (cells.map (fun i => cellVal env i)) ∈ t.stackByteRows
  | .blockLookup tag _ v =>
      p = 0 || (tag, v.eval env) ∈ t.blockRows
  | .bytecodeLengthLookup h len =>
      p = 0 || (h.eval env, len.eval env) ∈ t.bytecodeLenRows
  | .bytecodeLookup h i ic v =>
      p = 0 || (h.eval env, i.eval env, ic.eval env, v.eval env) ∈ t.bytecodeByteRows
  | .callContextLookup _ _ tag v =>
      p = 0 || (tag, v.eval env) ∈ t.callCtxRows
  | .opcodeLookup op =>
      p = 0 || (env.curr.code_hash, env.curr.program_counter, 1, op.eval env) ∈ t.bytecodeByteRows
  | .requireZero _ e0 => p * e0.eval env = 0
  | .requireEqual _ a b => p * (a.eval env - b.eval env) = 0
  | .requireBoolean _ e0 => p * e0.eval env * (e0.eval env - 1) = 0
  | .ltGadget lhs rhs lt =>
      cellVal env lt = (if lhs.eval env < rhs.eval env then 1 else 0)
  | .isEqualGadget a b eqc =>
      cellVal env eqc = (if a.eval env = b.eval env then 1 else 0)
  | .stepStateTransition tr => p = 0 || sstHoldsB env tr
  | .restoreContext _ => true

/-- Satisfaction of a whole effect list. -/
def allEffectsHold (env : Env) (t : Tables) (es : List Effect) : Bool :=
  es.all (effectHoldsB env t)

/-- A bytecode as stored by the witness model: at each position the byte
value and whether that position is code (an instruction start). -/
structure Bytecode where
  code : List (Nat × Bool)
  deriving DecidableEq, Repr

/-- Length of a bytecode, matching the byte-vector length the source
reads. -/
def Bytecode.len (b : Bytecode) : Nat := b.code.length

/-- The byte/is-code pair of a bytecode at a position, matching the pair
accessor of the source (byte value first, is-code flag second). -/
def Bytecode.get (b : Bytecode) (i : Nat) : Nat × Nat :=
  match b.code.getD i (0, false) with
  | (byte, ic) => (byte, if ic then 1 else 0)

/-- One read-write trace row; these gadgets read only the stack value,
a 256-bit word kept as a natural number. -/
structure RwOp where
  stack_value : Nat
  deriving DecidableEq, Repr

/-- One execution step of the trace, with the fields these gadgets read:
the optional opcode and the read-write indices of the step. -/
structure ExecStep where
  opcode : Option Nat
  rw_indices : List Nat
  deriving DecidableEq, Repr

/-- The witness block, restricted to the fields these gadgets read: the
read-write trace rows and the bytecodes keyed by code hash. -/
structure Block where
  rws : List RwOp
  bytecodes : List (Nat × Bytecode)
  deriving DecidableEq, Repr

/-- The call record, restricted to the field these gadgets read. -/
structure Call where
  code_hash : Nat
  deriving DecidableEq, Repr

/-- Lookup of a bytecode by code hash in the block map. -/
def Block.findBytecode (b : Block) (h : Nat) : Option Bytecode :=
  (b.bytecodes.find? (fun p => p.1 = h)).map (fun p => p.2)

/-- The ways the witness-assignment code can abort by panicking rather
than by returning its declared circuit error. -/
inductive PanicKind where
  | missingOpcode
  | indexOutOfBounds
  | missingBytecode
  | asU64Overflow
  deriving DecidableEq, Repr

/-- Outcome of a witness-assignment run: the assigned values, the declared
circuit-error result, or a panic.  The declared error arises from the
region-assignment calls, whose capacity bookkeeping is outside the given
sources; the pure model therefore never produces it, while the panics are
taken directly from the source (unwrap, expect, indexing, checked u64
conversion). -/
inductive AssignResult (A : Type) where
  | ok (a : A)
  | circuitError
  | panic (k : PanicKind)
  deriving DecidableEq, Repr

/-- The cell values assigned by the CHAINID gadget for one step: the
opcode cell and the two limbs of the chain-id word. -/
structure ChainIdAssigned where
  opcode : Nat
  chain_id_lo : Nat
  chain_id_hi : Nat
  deriving DecidableEq, Repr

/-- Embedding of the assignment function of the CHAINID gadget, following
the source: the same-context gadget unwraps the opcode of the step, then
the chain id is read as the stack value of the row at the first read-write
index of the step and split into its 128-bit limbs. -/
def chainidAssign (b : Block) (s : ExecStep) : AssignResult ChainIdAssigned :=
  match s.opcode with
  | none => .panic .missingOpcode
  | some op =>
    match s.rw_indices[0]? with
    | none => .panic .indexOutOfBounds
    | some i =>
      match b.rws[i]? with
      | none => .panic .indexOutOfBounds
      | some rw =>
        .ok { opcode := op
              chain_id_lo := rw.stack_value % 2 ^ 128
              chain_id_hi := rw.stack_value / 2 ^ 128 }

/-- The cell values assigned by the invalid-jump gadget for one step. -/
structure InvalidJumpAssigned where
  opcode : Nat
  destination : Nat
  code_length : Nat
  value : Nat
  is_code : Nat
  is_jump_dest : Nat
  out_of_range : Nat
  deriving DecidableEq, Repr

/-- Embedding of the assignment function of the invalid-jump gadget,
following the source: unwrap the opcode; read the destination as the stack
value of the row at the first read-write index; find the bytecode of the
call code hash (a panic when absent); take the bytecode length; convert
the destination to a 64-bit value (a panic when it does not fit, as in the
checked conversion of the source); take the byte/is-code pair at the
destination when it is strictly below the code length and the zero pair
otherwise; derive the jump-destination equality and the out-of-range
comparison values exactly as the sub-gadget assignments do. -/
def invalidJumpAssign (b : Block) (c : Call) (s : ExecStep) :
    AssignResult InvalidJumpAssigned :=
  match s.opcode with
  | none => .panic .missingOpcode
  | some op =>
    match s.rw_indices[0]? with
    | none => .panic .indexOutOfBounds
    | some i =>
      match b.rws[i]? with
      | none => .panic .indexOutOfBounds
      | some rw =>
        let destination := rw.stack_value
        match b.findBytecode c.code_hash with
        | none => .panic .missingBytecode
        | some code =>
          let codeLength := code.len
          if destination < 2 ^ 64 then
            let codePair :=
              if destination < codeLength then code.get destination else (0, 0)
            .ok { opcode := op
                  destination := destination
                  code_length := codeLength
                  value := codePair.1
                  is_code := codePair.2
                  is_jump_dest := if codePair.1 = 0x5b then 1 else 0
                  out_of_range := if codeLength < destination then 1 else 0 }
          else .panic .asU64Overflow

/-- The first `n` little-endian base-256 digits of a natural number, as
the source takes the first bytes of the little-endian encoding of the
destination word. -/
def leBytes : Nat → Nat → List Nat
  | 0, _ => []
  | n + 1, v => v % 256 :: leBytes n (v / 256)

/-- The environment induced by an invalid-jump assignment: cell values
laid out at the indices the configure run allocated (destination bytes,
opcode, value, is-code, is-jump-dest, code length, out-of-range), next to
given current and next step states. -/
def invalidJumpEnv (a : InvalidJumpAssigned) (curr nxt : StepState) : Env :=
  { cells := (leBytes nBytesProgramCounter a.destination).map Int.ofNat ++
      [Int.ofNat a.opcode, Int.ofNat a.value, Int.ofNat a.is_code,
       Int.ofNat a.is_jump_dest, Int.ofNat a.code_length, Int.ofNat a.out_of_range]
    curr := curr
    next := nxt }

/-- Modelled from the spec: the bytecode table rows of one bytecode, one
row per bytecode position carrying the code hash, the position, the
is-code flag and the byte value; the table construction itself lies
outside the given sources, the spec describes the bytecode byte-value
lookup as membership of such rows. -/
def bytecodeByteRows (h : Nat) (code : Bytecode) : List (Int × Int × Int × Int) :=
  (List.range code.len).map (fun i =>
    let p := code.get i
    (Int.ofNat h, Int.ofNat i, Int.ofNat p.2, Int.ofNat p.1))

/-- Modelled from the spec: the bytecode length row of one bytecode. -/
def bytecodeLenRows (h : Nat) (code : Bytecode) : List (Int × Int) :=
  [(Int.ofNat h, Int.ofNat code.len)]

/-- The Merkle-Patricia-Trie update lists of a block that the Poseidon
wrapper zips together: proof types and trie traces, kept abstract as
opaque identifiers since their content lies outside the given sources. -/
structure MptUpdates where
  proof_types : List Nat
  smt_traces : List Nat
  deriving DecidableEq, Repr

/-- The witness block, restricted to the fields the Poseidon wrapper
reads: the trie-update lists, the bytecodes as byte lists, and the
maximal row count of the circuit parameters. -/
structure PBlock where
  mpt_updates : MptUpdates
  bytecodes : List (List Nat)
  max_evm_rows : Nat
  deriving DecidableEq, Repr

/-- Outcome of the environment interactions the Poseidon wrapper performs
unchecked: file creation, serialization and the file write, each of which
the source unwraps. -/
structure IoOracle where
  createOk : Bool
  serializeOk : Bool
  writeOk : Bool
  deriving DecidableEq, Repr

/-- The ways the Poseidon wrapper panics. -/
inductive PoseidonPanic where
  | zipEqMismatch
  | fileCreateFailed
  | serializeFailed
  | fileWriteFailed
  deriving DecidableEq, Repr

/-- Names of the files the Poseidon wrapper touches (an enumeration; the
source uses the literal relative path dump.json). -/
inductive FileName where
  | dumpJson
  deriving DecidableEq, Repr

/-- A file-system side effect of the Poseidon wrapper, named by the file
it touches (paths are relative to the working directory, as in the
source). -/
inductive FileOp where
  | create (name : FileName)
  | write (name : FileName)
  deriving DecidableEq, Repr

/-- Outcome of a Poseidon wrapper run: a value together with the file
side effects performed, or a panic. -/
inductive PoseidonOutcome (A : Type) where
  | ok (a : A) (files : List FileOp)
  | panic (k : PoseidonPanic)
  deriving DecidableEq, Repr

/-- The part of the constructed Poseidon circuit value the claims are
about: the maximal hash count derived from the circuit parameters (the
hash-table content itself is handed to the external hash circuit and kept
abstract). -/
structure PoseidonCircuitModel where
  maxHashes : Nat
  deriving DecidableEq, Repr

/-- The common zktrie block of the Poseidon wrapper, shared verbatim by
its two entry points: zip the proof-type and trie-trace lists with the
length-checked zip (a panic on a length mismatch), create the dump file
(an unwrap, a panic when creation fails), serialize the zipped traces (an
unwrap, a panic when serialization fails) and write them out (an unwrap,
a panic when the write fails). -/
def zktrieDump (blk : PBlock) (io : IoOracle) :
    PoseidonOutcome (List (Nat × Nat)) :=
  if blk.mpt_updates.proof_types.length ≠ blk.mpt_updates.smt_traces.length then
    .panic .zipEqMismatch
  else if !io.createOk then .panic .fileCreateFailed
  else if !io.serializeOk then .panic .serializeFailed
  else if !io.writeOk then .panic .fileWriteFailed
  else .ok (blk.mpt_updates.proof_types.zip blk.mpt_updates.smt_traces)
    [.create .dumpJson, .write .dumpJson]

/-- Embedding of the block constructor of the Poseidon wrapper.  The
zktrie feature flag is a parameter, as is the external hash-trace
function; without the feature the run is an empty synthesis with no side
effects; with it the dump block runs first, then the hash traces are fed
to the hash table (abstract here).  The poseidon-codehash branch only
streams bytecodes into the abstract table and does not touch the
environment, so it needs no flag here. -/
def poseidonNewFromBlock (zktrie : Bool) (hashBlockSize : Nat)
    (blk : PBlock) (io : IoOracle) : PoseidonOutcome PoseidonCircuitModel :=
  let maxHashes := blk.max_evm_rows / hashBlockSize
  if zktrie then
    match zktrieDump blk io with
    | .panic k => .panic k
    | .ok _ files => .ok { maxHashes := maxHashes } files
  else
    .ok { maxHashes := maxHashes } []

/-- Embedding of the row-count function of the Poseidon wrapper.  The two
feature flags are parameters, as are the external hash-trace row counter
and the bytecode unroll counter (both functions live outside the given
sources); the zktrie branch repeats the dump block of the constructor,
then both branches accumulate their counted hash inputs, the sum is
scaled by the hash block size of the field, and the result is paired with
its maximum against the maximal row count of the circuit parameters. -/
def poseidonMinNumRowsBlock (zktrie codehash : Bool) (hashBlockSize : Nat)
    (hashTracesLen : List (Nat × Nat) → Nat) (unrollLen : List Nat → Nat)
    (blk : PBlock) (io : IoOracle) : PoseidonOutcome (Nat × Nat) :=
  match (if zktrie then
      match zktrieDump blk io with
      | .panic k => .panic k
      | .ok traces files => .ok (0 + hashTracesLen traces) files
    else (.ok 0 [] : PoseidonOutcome Nat)) with
  | .panic k => .panic k
  | .ok acc1 files =>
    let acc := (if codehash then
        acc1 + (blk.bytecodes.map unrollLen).sum
      else acc1) * hashBlockSize
    .ok (acc, max blk.max_evm_rows acc) files

/-- The step-state transition record of an effect, when it is one. -/
def Effect.sstOf : Effect → Option StepStateTransition
  | { cond := _, kind := .stepStateTransition t } => some t
  | _ => none

/-- The cell indices the invalid-jump configure run allocates for the
destination bytes. -/
def ijDestCells : List Nat := [0, 1, 2, 3, 4, 5, 6, 7]

/-- The cell index of the popped-value cell of the invalid-jump gadget. -/
def ijValueCell : Nat := 9

/-- The cell index of the is-code cell of the invalid-jump gadget. -/
def ijIsCodeCell : Nat := 10

/-- The cell index of the jump-destination equality result cell. -/
def ijIsJumpDestCell : Nat := 11

/-- The cell index of the bytecode-length cell of the invalid-jump
gadget. -/
def ijCodeLengthCell : Nat := 12

/-- The cell index of the out-of-range comparison result cell. -/
def ijOutOfRangeCell : Nat := 13

/-- The destination-value expression of the invalid-jump gadget, the
little-endian base-256 recombination of the destination byte cells. -/
def ijDestValueExpr : Expr := fromBytesExpr ijDestCells

/-- C2: the CHAINID gadget registers exactly one step-state transition,
and it moves the read-write counter by 1, the program counter by 1, the
stack pointer by -1 and the gas by minus the constant gas cost of
CHAINID, while every other component keeps the default transition,
which is the unchanged transition. -/
theorem chainid_step_transition_exact :
    chainidEffects.filterMap Effect.sstOf = [chainidSST] ∧
    ({ cond := [], kind := .stepStateTransition chainidSST } : Effect) ∈ chainidEffects ∧
    chainidSST =
      { rw_counter := .delta (.const 1)
        program_counter := .delta (.const 1)
        stack_pointer := .delta (.const (-1))
        gas_left := .delta (.neg (.const chainidConstantGasCost)) } ∧
    chainidSST.call_id = .same ∧
    chainidSST.is_root = .same ∧
    chainidSST.is_create = .same ∧
    chainidSST.code_hash = .same ∧
    chainidSST.memory_word_size = .same ∧
    chainidSST.reversible_write_counter = .same ∧
    chainidSST.log_id = .same ∧
    ({} : StepStateTransition).call_id = .same := by
  refine ⟨by decide, by decide, rfl, rfl, rfl, rfl, rfl, rfl, rfl, rfl, rfl⟩

/-- C3: the invalid-jump configure run pops the destination from the
stack, looks up the bytecode length of the current code hash, defines the
out-of-range flag through the comparison gadget on (code length,
destination), and under the condition that the destination is not out of
range registers the bytecode byte lookup at the destination, the
booleanity of is-code and the zero constraint on is-code times
is-jump-dest, where is-jump-dest is the equality-gadget result comparing
the looked-up byte with the JUMPDEST opcode. -/
theorem error_invalid_jump_configure_structure :
    ({ cond := [], kind := .stackPopRlc ijDestCells } : Effect)
      ∈ errorInvalidJumpEffects ∧
    ({ cond := [], kind := .bytecodeLengthLookup .currCodeHash (.cell ijCodeLengthCell) } : Effect)
      ∈ errorInvalidJumpEffects ∧
    ({ cond := [],
       kind := .ltGadget (.cell ijCodeLengthCell) ijDestValueExpr ijOutOfRangeCell } : Effect)
      ∈ errorInvalidJumpEffects ∧
    ({ cond := [],
       kind := .isEqualGadget (.cell ijValueCell) (.const jumpdestOpcode) ijIsJumpDestCell } : Effect)
      ∈ errorInvalidJumpEffects ∧
    ({ cond := [.sub (.const 1) (.cell ijOutOfRangeCell)],
       kind := .bytecodeLookup .currCodeHash ijDestValueExpr
         (.cell ijIsCodeCell) (.cell ijValueCell) } : Effect)
      ∈ errorInvalidJumpEffects ∧
    ({ cond := [.sub (.const 1) (.cell ijOutOfRangeCell)],
       kind := .requireBoolean .isCodeBoolType (.cell ijIsCodeCell) } : Effect)
      ∈ errorInvalidJumpEffects ∧
    ({ cond := [.sub (.const 1) (.cell ijOutOfRangeCell)],
       kind := .requireZero .isCodeFalseOrNotJumpdest
         (.mul (.cell ijIsCodeCell) (.cell ijIsJumpDestCell)) } : Effect)
      ∈ errorInvalidJumpEffects := by
  refine ⟨by decide, by decide, by decide, by decide, by decide, by decide, by decide⟩

/-- The block-context lookup effect the CHAINID configure run
registers. -/
def chainidBlockLookupEffect : Effect :=
  { cond := [], kind := .blockLookup .chainId none (.cell 0) }

/-- An environment holding a chain-id word by limbs at the cells the
CHAINID configure run allocated. -/
def chainidEnvOf (lo hi op : Int) (curr nxt : StepState) : Env :=
  { cells := [lo, hi, op], curr := curr, next := nxt }

/-- C10: the block-context lookup of the CHAINID gadget carries only the
low limb of the chain-id word, so its satisfaction is unchanged under any
change of the high limb: two words agreeing on the low limb yield the
same lookup constraint. -/
theorem chainid_block_lookup_lo_only :
    chainidBlockLookupEffect ∈ chainidEffects ∧
    ∀ (lo hi hi2 op : Int) (t : Tables) (curr nxt : StepState),
      effectHoldsB (chainidEnvOf lo hi op curr nxt) t chainidBlockLookupEffect =
      effectHoldsB (chainidEnvOf lo hi2 op curr nxt) t chainidBlockLookupEffect := by
  exact ⟨by decide, fun lo hi hi2 op t curr nxt => rfl⟩

/-- The 256-bit word value pushed onto the stack by the CHAINID gadget,
recombined from the two limb cells. -/
def pushedWordValue (env : Env) : Int :=
  cellVal env 0 + 2 ^ 128 * cellVal env 1

/-- The property that the CHAINID constraints force the full pushed word
to equal the chain id stored in the block-context table. -/
def chainidFullWordConstrained : Prop :=
  ∀ (env : Env) (t : Tables) (v : Int),
    t.blockRows = [(BlockTag.chainId, v)] →
    allEffectsHold env t chainidEffects = true →
    pushedWordValue env = v

/-- The current step state of the CHAINID counterexample witness. -/
def currC1 : StepState :=
  { rw_counter := 0, call_id := 0, is_root := 0, is_create := 0
    code_hash := 7, program_counter := 0, stack_pointer := 1024
    gas_left := 100, memory_word_size := 0, reversible_write_counter := 0
    log_id := 0, exec_state := .CHAINID }

/-- The next step state of the CHAINID counterexample witness. -/
def nextC1 : StepState :=
  { currC1 with rw_counter := 1, program_counter := 1
                stack_pointer := 1023, gas_left := 98, exec_state := .STOP }

/-- A satisfying assignment whose pushed word has low limb 5 and high
limb 1. -/
def envC1 : Env := { cells := [5, 1, 0x46], curr := currC1, next := nextC1 }

/-- Tables whose block context stores chain id 5 and whose read-write and
bytecode tables contain exactly the rows this assignment looks up. -/
def tablesC1 : Tables :=
  { stackRows := [(5, 1)]
    blockRows := [(.chainId, 5)]
    bytecodeByteRows := [(7, 0, 1, 0x46)] }

set_option maxRecDepth 4000 in
/-- C1, counterexample: an assignment whose chain-id word has high limb 1
satisfies every constraint the CHAINID configure run registers against a
block whose chain id is 5, yet the pushed word differs from the chain id:
the lookup carries only the low limb, so the full pushed value is not
constrained to equal the chain id of the block. -/
theorem chainid_full_word_counterexample : ¬ chainidFullWordConstrained := by
  intro h
  have h5 := h envC1 tablesC1 5 rfl (by decide)
  revert h5
  decide

/-- C1, amended: the CHAINID configure run pushes the chain-id word onto
the stack and registers the block-context lookup tagged with the chain-id
tag for the low limb of that word, so the low limb of the pushed value is
constrained to equal the chain id stored in the block-context table. -/
theorem chainid_lo_limb_constrained :
    ({ cond := [], kind := .stackPush (.cell 0) (.cell 1) } : Effect) ∈ chainidEffects ∧
    chainidBlockLookupEffect ∈ chainidEffects ∧
    ∀ (env : Env) (t : Tables) (v : Int),
      t.blockRows = [(BlockTag.chainId, v)] →
      allEffectsHold env t chainidEffects = true →
      cellVal env 0 = v := by
  refine ⟨by decide, by decide, ?_⟩
  intro env t v ht hall
  have heq : chainidEffects =
      [{ cond := [], kind := .stackPush (.cell 0) (.cell 1) },
       chainidBlockLookupEffect,
       { cond := [], kind := .opcodeLookup (.cell 2) },
       { cond := [], kind := .stepStateTransition chainidSST }] := by decide
  rw [heq] at hall
  simp only [allEffectsHold, List.all_cons, List.all_nil, Bool.and_eq_true] at hall
  have hblk := hall.2.1
  simp only [chainidBlockLookupEffect, effectHoldsB, condProd, Expr.eval, ht,
    Bool.or_eq_true, decide_eq_true_eq, List.mem_singleton, Prod.mk.injEq] at hblk
  rcases hblk with h1 | h1
  · norm_num at h1
  · exact h1.2

/-- Witness for the amended C1 theorem at the concrete satisfying
assignment and tables above. -/
theorem chainid_lo_limb_constrained_witness : cellVal envC1 0 = 5 :=
  chainid_lo_limb_constrained.2.2 envC1 tablesC1 5 rfl (by decide)

/-- The partial step-state transition the invalid-jump gadget requires
for root calls: call id unchanged, read-write counter moved by two plus
the reversible write counter, everything else unconstrained. -/
def ijRootSST : StepStateTransition :=
  { StepStateTransition.anyAll with
    call_id := .same
    rw_counter := .delta (.add (.const 2) .currReversibleWriteCounter) }

/-- The equality constraint tying the next-state-is-end-tx selector to
the root flag. -/
def ijEndTxEffect : Effect :=
  { cond := []
    kind := .requireEqual .goToEndTxOnlyWhenIsRoot
      .currIsRoot (.nextStateIs .EndTx) }

/-- C4: the invalid-jump gadget equates the root flag with the selector
of the next execution state being the end-transaction state, so under
the constraint the next state is the end-transaction state exactly when
the call is a root call; under the root condition it requires the partial
step-state transition keeping the call id and moving the read-write
counter by two plus the reversible write counter; under the non-root
condition it constructs the context-restoration gadget that restores the
caller state as the next step state. -/
theorem error_invalid_jump_root_vs_internal :
    ijEndTxEffect ∈ errorInvalidJumpEffects ∧
    ({ cond := [Expr.currIsRoot], kind := .stepStateTransition ijRootSST } : Effect)
      ∈ errorInvalidJumpEffects ∧
    ({ cond := [.sub (.const 1) Expr.currIsRoot],
       kind := .restoreContext [.const 0, .const 2, .const 0, .const 0, .const 0] } : Effect)
      ∈ errorInvalidJumpEffects ∧
    ijRootSST.call_id = .same ∧
    ijRootSST.rw_counter = .delta (.add (.const 2) .currReversibleWriteCounter) ∧
    ∀ (env : Env) (t : Tables),
      effectHoldsB env t ijEndTxEffect = true →
      (env.curr.is_root = 1 ↔ env.next.exec_state = ExecState.EndTx) := by
  refine ⟨by decide, by decide, by decide, rfl, rfl, ?_⟩
  intro env t h
  simp only [ijEndTxEffect, effectHoldsB, condProd, Expr.eval, one_mul,
    decide_eq_true_eq] at h
  constructor
  · intro h1
    by_contra hn
    simp only [if_neg hn] at h
    omega
  · intro hn
    simp only [if_pos hn] at h
    omega

/-- The environment of the C4 witness: a root call whose next execution
state is the end-transaction state. -/
def envC4 : Env :=
  { cells := []
    curr := { currC1 with is_root := 1, exec_state := .ErrorInvalidJump }
    next := { nextC1 with exec_state := .EndTx } }

/-- Witness for the C4 theorem at a concrete root-call environment. -/
theorem error_invalid_jump_root_vs_internal_witness :
    envC4.curr.is_root = 1 ↔ envC4.next.exec_state = ExecState.EndTx :=
  error_invalid_jump_root_vs_internal.2.2.2.2.2 envC4 {} (by decide)

/-- The single-byte bytecode of the boundary counterexample: one STOP
byte, which is code. -/
def codeB : Bytecode := { code := [(0, true)] }

/-- The block of the boundary case: one stack row holding destination 1,
the bytecode keyed by code hash 7. -/
def blockB : Block :=
  { rws := [{ stack_value := 1 }], bytecodes := [(7, codeB)] }

/-- The call of the boundary case. -/
def callB : Call := { code_hash := 7 }

/-- The step of the boundary case: a JUMP opcode whose first read-write
index points at the destination row. -/
def stepB : ExecStep := { opcode := some 0x56, rw_indices := [0] }

/-- The cell values the assignment function produces on the boundary
case destination = code length. -/
def assignedB : InvalidJumpAssigned :=
  { opcode := 0x56, destination := 1, code_length := 1
    value := 0, is_code := 0, is_jump_dest := 0, out_of_range := 0 }

/-- The conditional bytecode byte lookup registered by the invalid-jump
configure run. -/
def ijLookupEffect : Effect :=
  { cond := [.sub (.const 1) (.cell ijOutOfRangeCell)]
    kind := .bytecodeLookup .currCodeHash ijDestValueExpr
      (.cell ijIsCodeCell) (.cell ijValueCell) }

/-- The current step state of the boundary case (code hash 7, a root
call in the invalid-jump error state). -/
def currB : StepState :=
  { currC1 with is_root := 1, exec_state := .ErrorInvalidJump }

/-- The next step state of the boundary case. -/
def nextB : StepState := { nextC1 with exec_state := .EndTx }

/-- The witness tables of the boundary case, holding exactly the
bytecode rows of the block bytecode. -/
def tablesB : Tables :=
  { bytecodeLenRows := bytecodeLenRows 7 codeB
    bytecodeByteRows := bytecodeByteRows 7 codeB }

/-- C5: on the boundary case destination = code length the assignment
function returns the default pair (0, 0) with the out-of-range cell at 0,
the conditional bytecode lookup of the configure run is active (its
condition evaluates to 1), and the looked-up row is absent from the
bytecode table, so the assigned witness violates a constraint declared in
configure: the claim that it satisfies every constraint fails exactly at
this boundary. -/
theorem error_invalid_jump_boundary_violation :
    invalidJumpAssign blockB callB stepB = .ok assignedB ∧
    assignedB.destination = codeB.len ∧
    assignedB.value = 0 ∧ assignedB.is_code = 0 ∧ assignedB.out_of_range = 0 ∧
    ijLookupEffect ∈ errorInvalidJumpEffects ∧
    condProd (invalidJumpEnv assignedB currB nextB) ijLookupEffect.cond = 1 ∧
    effectHoldsB (invalidJumpEnv assignedB currB nextB) tablesB ijLookupEffect = false := by
  refine ⟨by decide, by decide, rfl, rfl, rfl, by decide, by decide, by decide⟩

/-- The property that the witness-assignment operations fail only through
the declared circuit-error result: none of them ever panics. -/
def assignsFailOnlyThroughDeclaredError : Prop :=
  (∀ (b : Block) (s : ExecStep) (k : PanicKind),
    chainidAssign b s ≠ .panic k) ∧
  (∀ (b : Block) (c : Call) (s : ExecStep) (k : PanicKind),
    invalidJumpAssign b c s ≠ .panic k) ∧
  (∀ (z : Bool) (h : Nat) (blk : PBlock) (io : IoOracle) (k : PoseidonPanic),
    poseidonNewFromBlock z h blk io ≠ .panic k)

/-- A step without an opcode, on which the assignment function of the
invalid-jump gadget hits its unwrap. -/
def stepC6 : ExecStep := { opcode := none, rw_indices := [0] }

/-- C6, counterexample: on a step with no opcode the invalid-jump
assignment panics through the unwrap of the opcode, a failure channel
distinct from the declared circuit-error result, so constraint violations
are not the only error channel. -/
theorem assign_panic_counterexample : ¬ assignsFailOnlyThroughDeclaredError :=
  fun h => h.2.1 blockB callB stepC6 .missingOpcode rfl

/-- C6, amended: besides the declared circuit-error result the
witness-assignment operations fail by panicking; the invalid-jump
assignment succeeds exactly when the step carries an opcode, the first
read-write index of the step points at a trace row, the destination fits
in 64 bits, and the bytecode of the call code hash is present, and it
panics otherwise. -/
theorem invalid_jump_assign_ok_characterization :
    ∀ (b : Block) (c : Call) (s : ExecStep),
      (∃ a, invalidJumpAssign b c s = .ok a) ↔
      (s.opcode.isSome ∧
       (∃ i rw, s.rw_indices[0]? = some i ∧ b.rws[i]? = some rw ∧
          rw.stack_value < 2 ^ 64) ∧
       (b.findBytecode c.code_hash).isSome) := by
  intro b c s
  constructor
  · rintro ⟨a, ha⟩
    unfold invalidJumpAssign at ha
    rcases ho : s.opcode with _ | op <;> rw [ho] at ha <;> dsimp only at ha
    · exact absurd ha (by simp)
    · rcases hi : s.rw_indices[0]? with _ | i <;> rw [hi] at ha <;> dsimp only at ha
      · exact absurd ha (by simp)
      · rcases hrw : b.rws[i]? with _ | rw0 <;> rw [hrw] at ha <;> dsimp only at ha
        · exact absurd ha (by simp)
        · rcases hbc : b.findBytecode c.code_hash with _ | code <;>
            rw [hbc] at ha <;> dsimp only at ha
          · exact absurd ha (by simp)
          · by_cases hd : rw0.stack_value < 2 ^ 64
            · exact ⟨rfl, ⟨i, rw0, rfl, hrw, hd⟩, rfl⟩
            · rw [if_neg hd] at ha
              exact absurd ha (by simp)
  · rintro ⟨h1, ⟨i, rw0, hi, hrw, hd⟩, h3⟩
    obtain ⟨op, ho⟩ := Option.isSome_iff_exists.mp h1
    obtain ⟨code, hbc⟩ := Option.isSome_iff_exists.mp h3
    unfold invalidJumpAssign
    rw [ho]
    dsimp only
    rw [hi]
    dsimp only
    rw [hrw]
    dsimp only
    rw [hbc]
    dsimp only
    rw [if_pos hd]
    exact ⟨_, rfl⟩

/-- Witness for the amended C6 theorem: the boundary block, call and
step satisfy the success characterization. -/
theorem invalid_jump_assign_ok_characterization_witness :
    stepB.opcode.isSome ∧
    (∃ i rw, stepB.rw_indices[0]? = some i ∧ blockB.rws[i]? = some rw ∧
       rw.stack_value < 2 ^ 64) ∧
    (blockB.findBytecode callB.code_hash).isSome :=
  (invalid_jump_assign_ok_characterization blockB callB stepB).mp
    ⟨assignedB, by decide⟩

/-- C7: witness assignment of the CHAINID gadget is a deterministic pure
function of the trace, and whenever it succeeds the chain-id cells
receive exactly the limbs of the stack value at the first read-write
index of the step. -/
theorem chainid_assign_deterministic :
    ∀ (b : Block) (s : ExecStep),
      chainidAssign b s = chainidAssign b s ∧
      ∀ a, chainidAssign b s = .ok a →
        ∃ i rw, s.rw_indices[0]? = some i ∧ b.rws[i]? = some rw ∧
          a.chain_id_lo = rw.stack_value % 2 ^ 128 ∧
          a.chain_id_hi = rw.stack_value / 2 ^ 128 := by
  intro b s
  refine ⟨rfl, ?_⟩
  intro a ha
  unfold chainidAssign at ha
  rcases ho : s.opcode with _ | op <;> rw [ho] at ha <;> dsimp only at ha
  · exact absurd ha (by simp)
  · rcases hi : s.rw_indices[0]? with _ | i <;> rw [hi] at ha <;> dsimp only at ha
    · exact absurd ha (by simp)
    · rcases hrw : b.rws[i]? with _ | rw0 <;> rw [hrw] at ha <;> dsimp only at ha
      · exact absurd ha (by simp)
      · cases ha
        exact ⟨i, rw0, rfl, hrw, rfl, rfl⟩

/-- The block of the C7 witness. -/
def blockC7 : Block := { rws := [{ stack_value := 1337 }], bytecodes := [] }

/-- The step of the C7 witness. -/
def stepC7 : ExecStep := { opcode := some 0x46, rw_indices := [0] }

/-- Witness for the C7 theorem at a concrete trace. -/
theorem chainid_assign_deterministic_witness :
    ∃ i rw, stepC7.rw_indices[0]? = some i ∧ blockC7.rws[i]? = some rw ∧
      (1337 : Nat) = rw.stack_value % 2 ^ 128 ∧
      (0 : Nat) = rw.stack_value / 2 ^ 128 :=
  (chainid_assign_deterministic blockC7 stepC7).2
    { opcode := 0x46, chain_id_lo := 1337, chain_id_hi := 0 } (by decide)

/-- C8: with the zktrie feature both entry points of the Poseidon wrapper
run the same dump block: they panic on a length mismatch between the
proof-type and trie-trace lists, panic when file creation fails, panic
when serialization fails, and on success create and write the dump file
in the working directory as a side effect. -/
theorem poseidon_zktrie_effects_and_panics :
    ∀ (hbs : Nat) (ch : Bool) (htl : List (Nat × Nat) → Nat)
      (ul : List Nat → Nat) (blk : PBlock) (io : IoOracle),
      (blk.mpt_updates.proof_types.length ≠ blk.mpt_updates.smt_traces.length →
        poseidonNewFromBlock true hbs blk io = .panic .zipEqMismatch ∧
        poseidonMinNumRowsBlock true ch hbs htl ul blk io = .panic .zipEqMismatch) ∧
      (blk.mpt_updates.proof_types.length = blk.mpt_updates.smt_traces.length →
        io.createOk = false →
        poseidonNewFromBlock true hbs blk io = .panic .fileCreateFailed ∧
        poseidonMinNumRowsBlock true ch hbs htl ul blk io = .panic .fileCreateFailed) ∧
      (blk.mpt_updates.proof_types.length = blk.mpt_updates.smt_traces.length →
        io.createOk = true → io.serializeOk = false →
        poseidonNewFromBlock true hbs blk io = .panic .serializeFailed ∧
        poseidonMinNumRowsBlock true ch hbs htl ul blk io = .panic .serializeFailed) ∧
      (blk.mpt_updates.proof_types.length = blk.mpt_updates.smt_traces.length →
        io.createOk = true → io.serializeOk = true → io.writeOk = true →
        (∃ v, poseidonNewFromBlock true hbs blk io =
          .ok v [.create .dumpJson, .write .dumpJson]) ∧
        (∃ p, poseidonMinNumRowsBlock true ch hbs htl ul blk io =
          .ok p [.create .dumpJson, .write .dumpJson])) := by
  intro hbs ch htl ul blk io
  refine ⟨?_, ?_, ?_, ?_⟩
  · intro hne
    constructor
    · simp [poseidonNewFromBlock, zktrieDump, hne]
    · simp [poseidonMinNumRowsBlock, zktrieDump, hne]
  · intro heq hc
    constructor
    · simp [poseidonNewFromBlock, zktrieDump, heq, hc]
    · simp [poseidonMinNumRowsBlock, zktrieDump, heq, hc]
  · intro heq hc hs
    constructor
    · simp [poseidonNewFromBlock, zktrieDump, heq, hc, hs]
    · simp [poseidonMinNumRowsBlock, zktrieDump, heq, hc, hs]
  · intro heq hc hs hw
    have hz : zktrieDump blk io =
        .ok (blk.mpt_updates.proof_types.zip blk.mpt_updates.smt_traces)
          [.create .dumpJson, .write .dumpJson] := by
      simp [zktrieDump, heq, hc, hs, hw]
    constructor
    · simp [poseidonNewFromBlock, hz]
    · simp [poseidonMinNumRowsBlock, hz]

/-- A block whose trie-update lists have mismatched lengths. -/
def blkMis : PBlock :=
  { mpt_updates := { proof_types := [0], smt_traces := [] }
    bytecodes := [], max_evm_rows := 0 }

/-- A block whose trie-update lists match. -/
def blkOk : PBlock :=
  { mpt_updates := { proof_types := [0], smt_traces := [4] }
    bytecodes := [], max_evm_rows := 64 }

/-- The all-successful environment oracle. -/
def ioAll : IoOracle := { createOk := true, serializeOk := true, writeOk := true }

/-- Witness for the C8 theorem: a mismatched block panics through the
length-checked zip, and a matched block with a healthy environment
creates and writes the dump file. -/
theorem poseidon_zktrie_effects_and_panics_witness :
    (poseidonNewFromBlock true 32 blkMis ioAll = .panic .zipEqMismatch ∧
     poseidonMinNumRowsBlock true false 32 (fun t => t.length) (fun c => c.length)
       blkMis ioAll = .panic .zipEqMismatch) ∧
    ((∃ v, poseidonNewFromBlock true 32 blkOk ioAll =
       .ok v [.create .dumpJson, .write .dumpJson]) ∧
     (∃ p, poseidonMinNumRowsBlock true false 32 (fun t => t.length) (fun c => c.length)
       blkOk ioAll = .ok p [.create .dumpJson, .write .dumpJson])) :=
  ⟨(poseidon_zktrie_effects_and_panics 32 false (fun t => t.length)
      (fun c => c.length) blkMis ioAll).1 (by decide),
   (poseidon_zktrie_effects_and_panics 32 false (fun t => t.length)
      (fun c => c.length) blkOk ioAll).2.2.2 (by decide) rfl rfl rfl⟩

/-- The property that the row-count function is total and returns the
stated pair on every block. -/
def minNumRowsTotalAndShaped : Prop :=
  ∀ (zk ch : Bool) (hbs : Nat) (htl : List (Nat × Nat) → Nat)
    (ul : List Nat → Nat) (blk : PBlock) (io : IoOracle),
    ∃ rn rt files,
      poseidonMinNumRowsBlock zk ch hbs htl ul blk io = .ok (rn, rt) files ∧
      (∃ cnt, rn = cnt * hbs) ∧ rt = max blk.max_evm_rows rn

/-- C9, counterexample: with the zktrie feature the row-count function
panics on a block whose trie-update lists have different lengths, so it
does not return a pair for every block. -/
theorem min_num_rows_counterexample : ¬ minNumRowsTotalAndShaped := by
  intro h
  obtain ⟨rn, rt, files, heq, -⟩ :=
    h true false 32 (fun t => t.length) (fun c => c.length) blkMis ioAll
  rw [show poseidonMinNumRowsBlock true false 32 (fun t => t.length)
    (fun c => c.length) blkMis ioAll = .panic .zipEqMismatch from by decide] at heq
  exact absurd heq (by simp)

/-- C9, amended: whenever the row-count function returns, the first
component is the number of counted hash inputs scaled by the hash block
size, the second is its maximum against the maximal row count of the
circuit parameters, and so the second is at least the first. -/
theorem min_num_rows_shape :
    ∀ (zk ch : Bool) (hbs : Nat) (htl : List (Nat × Nat) → Nat)
      (ul : List Nat → Nat) (blk : PBlock) (io : IoOracle)
      (rn rt : Nat) (files : List FileOp),
      poseidonMinNumRowsBlock zk ch hbs htl ul blk io = .ok (rn, rt) files →
      (∃ cnt, rn = cnt * hbs) ∧ rt = max blk.max_evm_rows rn ∧ rn ≤ rt := by
  intro zk ch hbs htl ul blk io rn rt files h
  unfold poseidonMinNumRowsBlock at h
  split at h
  · exact absurd h (by simp)
  · dsimp only at h
    simp only [PoseidonOutcome.ok.injEq, Prod.mk.injEq] at h
    obtain ⟨⟨hrn, hrt⟩, -⟩ := h
    subst hrn
    subst hrt
    exact ⟨⟨_, rfl⟩, rfl, le_max_right _ _⟩

/-- Witness for the amended C9 theorem on a feature-less run. -/
theorem min_num_rows_shape_witness :
    (∃ cnt, (0 : Nat) = cnt * 32) ∧ (64 : Nat) = max blkOk.max_evm_rows 0 ∧ (0 : Nat) ≤ 64 :=
  min_num_rows_shape false false 32 (fun t => t.length) (fun c => c.length)
    blkOk ioAll 0 64 [] (by decide)

end Zk
